import Mathlib

/-!
Verification of the subsampling layers of `chrispnet`
(`chrispnet/modules/encoder/prenet/subsampling.py`).

The file embeds, as executable Lean definitions, the shape- and
length-level semantics of the three entities of the source file:

* `calc_length` — the pure length calculator, a direct translation of
  the Python loop.  The Python code computes in `torch.float`; every
  intermediate value is an integer obtained by `floor`/`ceil` of a sum
  of integers divided by the stride, an exact binary-rational
  computation on the machine-representable range, so the exact
  rational model below coincides with the float one.
* `StackingSubsampling.forward` — padding, reshaping and length update
  of the frame-stacking component.
* `ConvSubsampling` — construction-time validation and layer building,
  the spatial output-size semantics of each built layer (the PyTorch
  `Conv2d` / `MaxPool2d` output-dimension formulas), the forward pass
  at the level of shapes and lengths, and a value-carrying model of
  the forward pass used for the data-independence property.
-/

/-! ## Definitions -/

/-- One iteration of the loop body of `calc_length`
(`subsampling.py`, lines 174-179): Python computes
`lengths = torch.div(lengths + add_pad, stride) + one` with
`add_pad = (padding * 2) - kernel_size` and `one = 1.0`, then applies
`torch.ceil` or `torch.floor` according to `ceil_mode`. -/
def calcStep (padding kernel_size stride : ℤ) (ceil_mode : Bool) (l : ℤ) : ℤ :=
  if ceil_mode then
    ⌈(((l : ℚ) + (((padding * 2 : ℤ) - kernel_size : ℤ) : ℚ)) / ((stride : ℤ) : ℚ)) + 1⌉
  else
    ⌊(((l : ℚ) + (((padding * 2 : ℤ) - kernel_size : ℤ) : ℚ)) / ((stride : ℤ) : ℚ)) + 1⌋

/-- `calc_length` (`subsampling.py`, lines 170-180): applies the
rounded affine transform `repeat_num` times to a length and returns
the result as an integer (the Python code keeps the running value as a
float tensor and casts with `.to(dtype=torch.int)` at the end; every
intermediate value is already an integer). -/
def calc_length (lengths padding kernel_size stride : ℤ) (ceil_mode : Bool) :
    ℕ → ℤ
  | 0 => lengths
  | n + 1 => calcStep padding kernel_size stride ceil_mode
      (calc_length lengths padding kernel_size stride ceil_mode n)

/-- Executable integer form of `calc_length` with the "striding"
parameters, used to evaluate concrete instances. -/
def stridingIter : ℕ → ℤ → ℤ
  | 0, l => l
  | n + 1, l => (stridingIter n l - 1) / 2 + 1

/-- Executable integer form of `calc_length` with the "vggnet"
parameters, used to evaluate concrete instances. -/
def vggnetIter : ℕ → ℤ → ℤ
  | 0, l => l
  | n + 1, l => -(-(vggnetIter n l) / 2)

/-- The rounding mode of §4.3 of the spec: "a rounding mode (ceiling or
floor)". -/
def specRoundMode (ceil_mode : Bool) (x : ℚ) : ℤ :=
  if ceil_mode then ⌈x⌉ else ⌊x⌋

/-- The length transform exactly as the spec words it (§4.3):
"applies the transform `length ← round_mode((length + 2×padding − kernel) / stride + 1)`". -/
def specLengthStep (padding kernel_size stride : ℤ) (ceil_mode : Bool) (l : ℤ) : ℤ :=
  specRoundMode ceil_mode (((l : ℚ) + 2 * (padding : ℚ) - (kernel_size : ℚ)) / (stride : ℚ) + 1)

/-- Construction-time state of `StackingSubsampling.__init__`
(`subsampling.py`, lines 29-32): the stored factor and the sizes of the
learned projection `proj_out : Linear(subsampling_factor * feat_in, feat_out)`. -/
structure StackingSubsampling where
  subsampling_factor : ℕ
  feat_in : ℕ
  feat_out : ℕ
deriving DecidableEq

/-- `pad_size = self.subsampling_factor - (t % self.subsampling_factor)`
(`subsampling.py`, line 36). -/
def StackingSubsampling.padSize (m : StackingSubsampling) (t : ℕ) : ℕ :=
  m.subsampling_factor - t % m.subsampling_factor

/-- Value-level model of `torch.nn.functional.pad(x, (0, 0, 0, pad_size))`
(`subsampling.py`, line 37) on one batch item: append `pad_size` all-zero
frames of width `h` at the end of the time axis. -/
def padTimeFrames (pad_size h : ℕ) (x : List (List ℚ)) : List (List ℚ) :=
  x ++ List.replicate pad_size (List.replicate h 0)

/-- Shape- and length-level semantics of `StackingSubsampling.forward`
(`subsampling.py`, lines 34-46) on an input of shape `(b, t, h)`:
the time axis is padded to `t + pad_size`, reshaped to
`(b, (t + pad_size) / factor, h * factor)` and projected to `feat_out`;
the lengths are updated with
`torch.div(lengths + pad_size, factor, rounding_mode="floor")`. -/
def StackingSubsampling.forward (m : StackingSubsampling) (b t h : ℕ)
    (lengths : List ℤ) : (ℕ × ℕ × ℕ) × List ℤ :=
  let pad_size := m.padSize t
  let t2 := t + pad_size
  ((b, t2 / m.subsampling_factor, m.feat_out),
    lengths.map fun (l : ℤ) =>
      ⌊((l : ℚ) + (pad_size : ℚ)) / (m.subsampling_factor : ℚ)⌋)

/-- One entry of the `layers` list built by `ConvSubsampling.__init__`
(`subsampling.py`, lines 79-135): a `torch.nn.Conv2d`, a
`torch.nn.MaxPool2d`, or the activation module (which leaves shapes
unchanged). -/
inductive Layer where
  | conv2d (in_channels out_channels kernel_size stride padding : ℕ)
  | maxPool2d (kernel_size stride padding : ℕ) (ceil_mode : Bool)
  | activation
deriving DecidableEq

/-- Spatial output size of one layer (PyTorch `Conv2d` / `MaxPool2d`
output-dimension semantics, with `dilation = 1`):
`Conv2d` yields `⌊(d + 2·padding − kernel) / stride⌋ + 1`;
`MaxPool2d` uses the same formula with `⌈·⌉` when `ceil_mode` is set,
except that a last window that would start in the right padded region
is dropped (`(out − 1)·stride ≥ d + padding` decrements the output by
one); the activation is elementwise. -/
def Layer.dimOut : Layer → ℤ → ℤ
  | .conv2d _ _ k s p, d => ⌊((d : ℚ) + 2 * (p : ℚ) - (k : ℚ)) / (s : ℚ)⌋ + 1
  | .maxPool2d k s p cm, d =>
      if cm then
        let o := ⌈((d : ℚ) + 2 * (p : ℚ) - (k : ℚ)) / (s : ℚ)⌉ + 1
        if (o - 1) * (s : ℤ) ≥ d + (p : ℤ) then o - 1 else o
      else ⌊((d : ℚ) + 2 * (p : ℚ) - (k : ℚ)) / (s : ℚ)⌋ + 1
  | .activation, d => d

/-- Spatial output size of `torch.nn.Sequential(*layers)`: the layers
are applied in list order. -/
def seqDimOut (layers : List Layer) (d : ℤ) : ℤ :=
  layers.foldl (fun i l => l.dimOut i) d

/-- One "vggnet" stage (`subsampling.py`, lines 88-116): two 3×3
convolutions with stride 1 and padding 1, each followed by the
activation, then a 2×2 max-pool with stride 2, padding 0 and
`ceil_mode=True`. -/
def vggnetStage (conv_channels in_channels : ℕ) : List Layer :=
  [Layer.conv2d in_channels conv_channels 3 1 1, Layer.activation,
   Layer.conv2d conv_channels conv_channels 3 1 1, Layer.activation,
   Layer.maxPool2d 2 2 0 true]

/-- The "vggnet" layer list built by the loop at lines 88-117: the
first stage starts from `in_channels = 1`; afterwards
`in_channels = conv_channels`. -/
def vggnetLayers (conv_channels : ℕ) : ℕ → ℕ → List Layer
  | 0, _ => []
  | n + 1, in_channels =>
      vggnetStage conv_channels in_channels ++ vggnetLayers conv_channels n conv_channels

/-- One "striding" stage (`subsampling.py`, lines 124-135): a single
3×3 convolution with stride 2 and padding 1, followed by the
activation. -/
def stridingStage (conv_channels in_channels : ℕ) : List Layer :=
  [Layer.conv2d in_channels conv_channels 3 2 1, Layer.activation]

/-- The "striding" layer list built by the loop at lines 124-135. -/
def stridingLayers (conv_channels : ℕ) : ℕ → ℕ → List Layer
  | 0, _ => []
  | n + 1, in_channels =>
      stridingStage conv_channels in_channels ++ stridingLayers conv_channels n conv_channels

/-- Construction-time state of `ConvSubsampling.__init__`
(`subsampling.py`, lines 62-149): the strategy name, the
padding/kernel/stride/rounding parameters shared by construction-time
sizing and forward-time length tracking, the stage count
`_sampling_num`, the configured widths, and the built layer list. -/
structure ConvConfig where
  subsampling : String
  padding : ℤ
  kernel_size : ℤ
  stride : ℤ
  ceil_mode : Bool
  sampling_num : ℕ
  feat_in : ℕ
  feat_out : ℕ
  conv_channels : ℕ
  layers : List Layer
deriving DecidableEq

/-- Fuel-driven base-2 integer logarithm: `log2Aux fuel n = ⌊log₂ n⌋`
whenever `n ≤ fuel`. -/
def log2Aux : ℕ → ℕ → ℕ
  | 0, _ => 0
  | fuel + 1, n => if 2 ≤ n then log2Aux fuel (n / 2) + 1 else 0

/-- `int(math.log(n, 2))` for positive `n` (`subsampling.py`, line 76):
`⌊log₂ n⌋`.  Python computes the logarithm in floating point and
truncates with `int`; the float computation is exact on the
power-of-two factors the class documents, where it equals this floor.
This function is only consulted for `n ≥ 1`: at `n = 0` the
constructor below takes `math.log`'s error path instead. -/
def natLog2 (n : ℕ) : ℕ := log2Aux n n

/-- `ConvSubsampling.__init__` (`subsampling.py`, lines 62-149):
first validates `subsampling_factor % 2 != 0` (raising
`ValueError("Sampling factor should be a multiply of 2!")`); factor 0
passes that check but `math.log(0, 2)` on line 76 raises
`ValueError("math domain error")`.  The constructor then branches on
the strategy name, setting the padding/kernel/stride/rounding
parameters and building the layer stack, and raising
`ValueError(f"Not valid sub-sampling: {subsampling}!")` for any other
name.  (The constructor also sizes the output projection
`Linear(conv_channels * int(out_length), feat_out)` from
`calc_length` applied to `feat_in`; the projection maps onto
`feat_out` columns, which is all the shape model needs from it.) -/
def convSubsamplingInit (subsampling : String)
    (subsampling_factor feat_in feat_out conv_channels : ℕ) :
    Except String ConvConfig :=
  if subsampling_factor % 2 ≠ 0 then
    Except.error "Sampling factor should be a multiply of 2!"
  else if subsampling_factor = 0 then
    Except.error "math domain error"
  else
    let sampling_num := natLog2 subsampling_factor
    if subsampling = "vggnet" then
      Except.ok ⟨subsampling, 0, 2, 2, true, sampling_num, feat_in, feat_out,
        conv_channels, vggnetLayers conv_channels sampling_num 1⟩
    else if subsampling = "striding" then
      Except.ok ⟨subsampling, 1, 3, 2, false, sampling_num, feat_in, feat_out,
        conv_channels, stridingLayers conv_channels sampling_num 1⟩
    else
      Except.error ("Not valid sub-sampling: " ++ subsampling ++ "!")

/-- Shape- and length-level semantics of `ConvSubsampling.forward`
(`subsampling.py`, lines 151-167) on an input of shape `(b, t, d)`:
the lengths are recomputed with `calc_length` from the stored
parameters, the tensor goes through the convolution stack (reducing
the time axis to `seqDimOut layers t`) and through the output linear
projection onto `feat_out` columns. -/
def ConvConfig.forwardShape (c : ConvConfig) (b : ℕ) (t d : ℤ)
    (lengths : List ℤ) : (ℕ × ℤ × ℕ) × List ℤ :=
  ((b, seqDimOut c.layers t, c.feat_out),
    lengths.map fun l =>
      calc_length l c.padding c.kernel_size c.stride c.ceil_mode c.sampling_num)

/-- A value-carrying `(batch, time, feat)` tensor. -/
structure Tensor3 where
  batch : ℕ
  time : ℕ
  feat : ℕ
  val : ℕ → ℕ → ℕ → ℚ

/-- A value-carrying `(batch, channel, time, feat)` tensor. -/
structure Tensor4 where
  batch : ℕ
  chan : ℕ
  time : ℕ
  feat : ℕ
  val : ℕ → ℕ → ℕ → ℕ → ℚ

/-- `x.unsqueeze(1)` (`subsampling.py`, line 163): insert a singleton
channel dimension. -/
def Tensor3.unsqueeze1 (x : Tensor3) : Tensor4 :=
  ⟨x.batch, 1, x.time, x.feat, fun b _ t f => x.val b t f⟩

/-- `x.transpose(1, 2).reshape(b, t, -1)` (`subsampling.py`, line 166):
bring the time axis forward and flatten channels with features. -/
def Tensor4.transposeFlatten (x : Tensor4) : Tensor3 :=
  ⟨x.batch, x.time, x.chan * x.feat,
    fun b t i => x.val b (i / x.feat) t (i % x.feat)⟩

/-- A constructed `ConvSubsampling` module: its configuration plus its
two learned sub-modules `self.conv` (the sequential stack) and
`self.out` (the output linear projection), kept abstract because their
weights are arbitrary learned values. -/
structure ConvSubsampling where
  cfg : ConvConfig
  conv : Tensor4 → Tensor4
  outLinear : Tensor3 → Tensor3

/-- Value-level `ConvSubsampling.forward` (`subsampling.py`, lines
151-167), following the statement order of the source: the updated
lengths are computed from `lengths` alone via `calc_length`; the
feature tensor `x` then flows through `unsqueeze`, `self.conv`,
`transpose/reshape` and `self.out`. -/
def ConvSubsampling.forward (m : ConvSubsampling) (x : Tensor3)
    (lengths : List ℤ) : Tensor3 × List ℤ :=
  let lengths2 := lengths.map fun l =>
    calc_length l m.cfg.padding m.cfg.kernel_size m.cfg.stride
      m.cfg.ceil_mode m.cfg.sampling_num
  let x2 := m.conv x.unsqueeze1
  (m.outLinear x2.transposeFlatten, lengths2)

/-! ## Theorems -/

/-- The loop of `calc_length` is the `repeat_num`-fold iterate of its body. -/
theorem calc_length_eq_iterate (l padding kernel_size stride : ℤ) (cm : Bool) :
    ∀ n : ℕ, calc_length l padding kernel_size stride cm n
      = (calcStep padding kernel_size stride cm)^[n] l
  | 0 => rfl
  | n + 1 => by
      rw [calc_length, calc_length_eq_iterate l padding kernel_size stride cm n,
        Function.iterate_succ_apply']

/-- Peeling the first (innermost) iteration of `calc_length`. -/
theorem calc_length_succ_left (l padding kernel_size stride : ℤ) (cm : Bool) (n : ℕ) :
    calc_length l padding kernel_size stride cm (n + 1)
      = calc_length (calcStep padding kernel_size stride cm l)
          padding kernel_size stride cm n := by
  rw [calc_length_eq_iterate, calc_length_eq_iterate, Function.iterate_succ_apply]

/-- With the "striding" parameters (padding 1, kernel 3, stride 2, floor
rounding) one `calc_length` iteration is the integer map `l ↦ (l-1)/2 + 1`
(integer division rounding towards `-∞`). -/
theorem calcStep_striding (l : ℤ) : calcStep 1 3 2 false l = (l - 1) / 2 + 1 := by
  have h : ((l : ℚ) + ((((1 : ℤ) * 2 - 3 : ℤ)) : ℚ)) / (((2 : ℤ)) : ℚ) + 1
      = ((l - 1 : ℤ) : ℚ) / ((2 : ℕ) : ℚ) + 1 := by push_cast; ring
  simp only [calcStep, Bool.false_eq_true, if_false]
  rw [h, Int.floor_add_one, Rat.floor_intCast_div_natCast]
  norm_num

/-- With the "vggnet" parameters (padding 0, kernel 2, stride 2, ceiling
rounding) one `calc_length` iteration is the integer map
`l ↦ ⌈l/2⌉ = -((-l)/2)`. -/
theorem calcStep_vggnet (l : ℤ) : calcStep 0 2 2 true l = -(-l / 2) := by
  have h : ((l : ℚ) + ((((0 : ℤ) * 2 - 2 : ℤ)) : ℚ)) / (((2 : ℤ)) : ℚ) + 1
      = (l : ℚ) / 2 := by push_cast; ring
  have h2 : -((l : ℚ) / 2) = ((-l : ℤ) : ℚ) / ((2 : ℕ) : ℚ) := by push_cast; ring
  have h3 : ⌈(l : ℚ) / 2⌉ = -⌊-((l : ℚ) / 2)⌋ := by rw [Int.floor_neg, neg_neg]
  simp only [calcStep, if_true]
  rw [h, h3, h2, Rat.floor_intCast_div_natCast]
  norm_num

theorem calc_length_striding_eval (l : ℤ) :
    ∀ n : ℕ, calc_length l 1 3 2 false n = stridingIter n l
  | 0 => rfl
  | n + 1 => by
      rw [calc_length, stridingIter, calc_length_striding_eval l n, calcStep_striding]

theorem calc_length_vggnet_eval (l : ℤ) :
    ∀ n : ℕ, calc_length l 0 2 2 true n = vggnetIter n l
  | 0 => rfl
  | n + 1 => by
      rw [calc_length, vggnetIter, calc_length_vggnet_eval l n, calcStep_vggnet]

example : calc_length 1600 1 3 2 false 2 = 400 := by
  rw [calc_length_striding_eval]; decide
example : calc_length 666 1 3 2 false 2 = 167 := by
  rw [calc_length_striding_eval]; decide
example : calc_length 7 0 2 2 true 1 = 4 := by
  rw [calc_length_vggnet_eval]; decide

theorem calcStep_eq_specLengthStep (padding kernel_size stride : ℤ) (cm : Bool) :
    calcStep padding kernel_size stride cm = specLengthStep padding kernel_size stride cm := by
  funext l
  have h : ((l : ℚ) + (((padding * 2 : ℤ) - kernel_size : ℤ) : ℚ)) / ((stride : ℤ) : ℚ) + 1
      = ((l : ℚ) + 2 * (padding : ℚ) - (kernel_size : ℚ)) / (stride : ℚ) + 1 := by
    push_cast; ring
  cases cm <;> simp only [calcStep, specLengthStep, specRoundMode, if_true,
    Bool.false_eq_true, if_false] <;> rw [h]

theorem dimOut_activation (d : ℤ) : Layer.activation.dimOut d = d := rfl

/-- PyTorch output size of the striding 3×3/stride-2/padding-1
convolution, in integer-division form. -/
theorem dimOut_conv_striding (a c : ℕ) (d : ℤ) :
    (Layer.conv2d a c 3 2 1).dimOut d = (d - 1) / 2 + 1 := by
  have h : ((d : ℚ) + 2 * ((1 : ℕ) : ℚ) - ((3 : ℕ) : ℚ)) / (((2 : ℕ)) : ℚ)
      = ((d - 1 : ℤ) : ℚ) / ((2 : ℕ) : ℚ) := by push_cast; ring
  simp only [Layer.dimOut]
  rw [h, Rat.floor_intCast_div_natCast]
  norm_num

/-- The 3×3/stride-1/padding-1 convolutions of a "vggnet" stage leave
the spatial size unchanged. -/
theorem dimOut_conv_same (a c : ℕ) (d : ℤ) :
    (Layer.conv2d a c 3 1 1).dimOut d = d := by
  have h : ((d : ℚ) + 2 * ((1 : ℕ) : ℚ) - ((3 : ℕ) : ℚ)) / (((1 : ℕ)) : ℚ)
      = ((d - 1 : ℤ) : ℚ) := by push_cast; ring
  simp only [Layer.dimOut]
  rw [h, Int.floor_intCast]
  omega

/-- PyTorch output size of the 2×2/stride-2/padding-0 max-pool in ceil
mode: the ceil-mode formula gives `⌈d/2⌉` and the last window never
starts in the right padded region, so no correction applies. -/
theorem dimOut_pool_vggnet (d : ℤ) :
    (Layer.maxPool2d 2 2 0 true).dimOut d = -(-d / 2) := by
  have h : ((d : ℚ) + 2 * ((0 : ℕ) : ℚ) - ((2 : ℕ) : ℚ)) / (((2 : ℕ)) : ℚ)
      = (d : ℚ) / 2 - 1 := by push_cast; ring
  have hceil : ⌈(d : ℚ) / 2 - 1⌉ + 1 = ⌈(d : ℚ) / 2⌉ := by
    rw [show ((1 : ℚ)) = ((1 : ℤ) : ℚ) from by norm_num, Int.ceil_sub_int]
    ring
  have hlt : 2 * ⌈(d : ℚ) / 2⌉ < d + 2 := by
    have h1 : (⌈(d : ℚ) / 2⌉ : ℚ) < (d : ℚ) / 2 + 1 := Int.ceil_lt_add_one _
    have h2 : 2 * (⌈(d : ℚ) / 2⌉ : ℚ) < (d : ℚ) + 2 := by linarith
    exact_mod_cast h2
  have hcond : ¬ ((⌈(d : ℚ) / 2⌉ - 1) * ((2 : ℕ) : ℤ) ≥ d + ((0 : ℕ) : ℤ)) := by
    push_cast
    omega
  have hres : ⌈(d : ℚ) / 2⌉ = -(-d / 2) := by
    have h2 : -((d : ℚ) / 2) = ((-d : ℤ) : ℚ) / ((2 : ℕ) : ℚ) := by push_cast; ring
    have h3 : ⌈(d : ℚ) / 2⌉ = -⌊-((d : ℚ) / 2)⌋ := by rw [Int.floor_neg, neg_neg]
    rw [h3, h2, Rat.floor_intCast_div_natCast]
    norm_num
  simp only [Layer.dimOut, if_true, h, hceil]
  rw [if_neg hcond, hres]

theorem seqDimOut_append (xs ys : List Layer) (d : ℤ) :
    seqDimOut (xs ++ ys) d = seqDimOut ys (seqDimOut xs d) := by
  simp only [seqDimOut, List.foldl_append]

/-- One "striding" stage reduces the spatial size exactly as one
`calc_length` iteration with the "striding" parameters. -/
theorem stage_striding (cc ich : ℕ) (d : ℤ) :
    seqDimOut (stridingStage cc ich) d = calcStep 1 3 2 false d := by
  simp only [stridingStage, seqDimOut, List.foldl_cons, List.foldl_nil]
  rw [dimOut_activation, dimOut_conv_striding, calcStep_striding]

/-- One "vggnet" stage reduces the spatial size exactly as one
`calc_length` iteration with the "vggnet" parameters. -/
theorem stage_vggnet (cc ich : ℕ) (d : ℤ) :
    seqDimOut (vggnetStage cc ich) d = calcStep 0 2 2 true d := by
  simp only [vggnetStage, seqDimOut, List.foldl_cons, List.foldl_nil]
  simp only [dimOut_activation, dimOut_conv_same, dimOut_pool_vggnet, calcStep_vggnet]

/-- The whole "striding" stack reduces the spatial size exactly as
`calc_length` with the "striding" parameters and the same repeat
count. -/
theorem seqDimOut_striding (cc : ℕ) :
    ∀ (n : ℕ) (ich : ℕ) (d : ℤ),
      seqDimOut (stridingLayers cc n ich) d = calc_length d 1 3 2 false n
  | 0, _, _ => rfl
  | n + 1, ich, d => by
      rw [stridingLayers, seqDimOut_append, stage_striding,
        seqDimOut_striding cc n cc, ← calc_length_succ_left]

/-- The whole "vggnet" stack reduces the spatial size exactly as
`calc_length` with the "vggnet" parameters and the same repeat
count. -/
theorem seqDimOut_vggnet (cc : ℕ) :
    ∀ (n : ℕ) (ich : ℕ) (d : ℤ),
      seqDimOut (vggnetLayers cc n ich) d = calc_length d 0 2 2 true n
  | 0, _, _ => rfl
  | n + 1, ich, d => by
      rw [vggnetLayers, seqDimOut_append, stage_vggnet,
        seqDimOut_vggnet cc n cc, ← calc_length_succ_left]

/-- Case analysis on a successful construction: the stored parameters
and layers are the "vggnet" ones or the "striding" ones. -/
theorem convSubsamplingInit_ok {s : String} {f fi fo cc : ℕ} {cfg : ConvConfig}
    (h : convSubsamplingInit s f fi fo cc = Except.ok cfg) :
    (cfg.padding = 0 ∧ cfg.kernel_size = 2 ∧ cfg.stride = 2 ∧ cfg.ceil_mode = true
      ∧ cfg.conv_channels = cc ∧ cfg.layers = vggnetLayers cc cfg.sampling_num 1)
    ∨ (cfg.padding = 1 ∧ cfg.kernel_size = 3 ∧ cfg.stride = 2 ∧ cfg.ceil_mode = false
      ∧ cfg.conv_channels = cc ∧ cfg.layers = stridingLayers cc cfg.sampling_num 1) := by
  unfold convSubsamplingInit at h
  split at h
  · exact absurd h (by simp)
  · split at h
    · exact absurd h (by simp)
    · split at h
      · left
        simp only [Except.ok.injEq] at h
        subst h
        simp
      · split at h
        · right
          simp only [Except.ok.injEq] at h
          subst h
          simp
        · exact absurd h (by simp)

/-- The loop body of `calc_length` is monotone in the length for any
positive stride. -/
theorem calcStep_mono (padding kernel_size stride : ℤ) (cm : Bool)
    (hs : 0 < stride) (a b : ℤ) (hab : a ≤ b) :
    calcStep padding kernel_size stride cm a ≤ calcStep padding kernel_size stride cm b := by
  have hsq : (0 : ℚ) < ((stride : ℤ) : ℚ) := by exact_mod_cast hs
  have habq : (a : ℚ) ≤ (b : ℚ) := by exact_mod_cast hab
  have harg : ((a : ℚ) + (((padding * 2 : ℤ) - kernel_size : ℤ) : ℚ)) / ((stride : ℤ) : ℚ) + 1
      ≤ ((b : ℚ) + (((padding * 2 : ℤ) - kernel_size : ℤ) : ℚ)) / ((stride : ℤ) : ℚ) + 1 := by
    gcongr
  cases cm
  · simp only [calcStep, Bool.false_eq_true, if_false]
    exact Int.floor_le_floor harg
  · simp only [calcStep, if_true]
    exact Int.ceil_le_ceil harg

/-- `calc_length` is monotone in the length for any positive stride. -/
theorem calc_length_mono (padding kernel_size stride : ℤ) (cm : Bool)
    (hs : 0 < stride) (a b : ℤ) (hab : a ≤ b) :
    ∀ n : ℕ, calc_length a padding kernel_size stride cm n
      ≤ calc_length b padding kernel_size stride cm n
  | 0 => hab
  | n + 1 => by
      simp only [calc_length]
      exact calcStep_mono padding kernel_size stride cm hs _ _
        (calc_length_mono padding kernel_size stride cm hs a b hab n)

/-- Length 0 is a fixed point of `calc_length` with the "striding"
parameters. -/
theorem calc_length_striding_zero : ∀ n : ℕ, calc_length 0 1 3 2 false n = 0
  | 0 => rfl
  | n + 1 => by
      rw [calc_length, calc_length_striding_zero n, calcStep_striding]
      decide

/-- Length 0 is a fixed point of `calc_length` with the "vggnet"
parameters. -/
theorem calc_length_vggnet_zero : ∀ n : ℕ, calc_length 0 0 2 2 true n = 0
  | 0 => rfl
  | n + 1 => by
      rw [calc_length, calc_length_vggnet_zero n, calcStep_vggnet]
      decide

/-- The padded time size of `StackingSubsampling.forward` divided by
the factor is always `t / F + 1`: padding adds `F - t % F ∈ [1, F]`
frames, which completes the last block and, when `F` divides `t`,
appends one whole extra block. -/
theorem stacking_time_eq (F t : ℕ) (hF : 1 ≤ F) :
    (t + (F - t % F)) / F = t / F + 1 := by
  have hmod : t % F < F := Nat.mod_lt _ hF
  have hdm : F * (t / F) + t % F = t := Nat.div_add_mod t F
  have h1 : t + (F - t % F) = (t / F + 1) * F := by
    calc t + (F - t % F) = F * (t / F) + t % F + (F - t % F) := by rw [hdm]
    _ = F * (t / F) + F := by omega
    _ = (t / F + 1) * F := by ring
  rw [h1, Nat.mul_div_cancel _ (show 0 < F by omega)]

/-- C5: the length calculator, given a length, padding `p`, kernel size
`k`, stride `s`, a rounding mode (ceiling or floor) and a repeat count
`n`, returns exactly the result of applying
`length ← round_mode((length + 2p − k) / s + 1)` (computed exactly on
rationals, as the float code does on this range) `n` times. -/
theorem calc_length_iterates_spec_transform
    (lengths padding kernel_size stride : ℤ) (ceil_mode : Bool) (repeat_num : ℕ) :
    calc_length lengths padding kernel_size stride ceil_mode repeat_num
      = (specLengthStep padding kernel_size stride ceil_mode)^[repeat_num] lengths := by
  rw [calc_length_eq_iterate, calcStep_eq_specLengthStep]

/-- C9: `calc_length` is monotone non-decreasing in its length input:
for fixed padding, kernel size, positive stride, rounding mode and
repeat count, `a ≤ b` implies `calc_length a ≤ calc_length b`. -/
theorem calc_length_monotone_in_length (padding kernel_size stride : ℤ)
    (ceil_mode : Bool) (repeat_num : ℕ) (a b : ℤ)
    (hs : 0 < stride) (ha : 0 ≤ a) (hab : a ≤ b) :
    calc_length a padding kernel_size stride ceil_mode repeat_num
      ≤ calc_length b padding kernel_size stride ceil_mode repeat_num :=
  calc_length_mono padding kernel_size stride ceil_mode hs a b hab repeat_num

/-- Witness for C9 at padding 1, kernel 3, stride 2, floor mode,
2 repeats, lengths 3 ≤ 5. -/
theorem calc_length_monotone_in_length_witness :
    (0 : ℤ) < 2 ∧ (0 : ℤ) ≤ 3 ∧ (3 : ℤ) ≤ 5
    ∧ calc_length 3 1 3 2 false 2 ≤ calc_length 5 1 3 2 false 2 :=
  ⟨by decide, by decide, by decide,
    calc_length_monotone_in_length 1 3 2 false 2 3 5 (by decide) (by decide) (by decide)⟩

/-- C2 counterexample: with factor `F = 2` and `T = 2` (so `F` divides
`T` exactly), the output time dimension of `StackingSubsampling.forward`
is `(T + pad)/F = 2`, not `⌈T/F⌉ = (2 + 2 - 1)/2 = 1` as the claim
states. -/
theorem stacking_output_time_ne_ceil_on_exact_multiple :
    ((StackingSubsampling.mk 2 3 5).forward 1 2 3 [2]).1.2.1 ≠ (2 + 2 - 1) / 2 := by
  decide

/-- C2 amended: for every factor `F ≥ 1`, `StackingSubsampling.forward`
on a `(B, T, H)` input produces an output tensor of shape
`(B, T/F + 1, feat_out)` (integer division).  This equals `⌈T/F⌉`
exactly when `F` does not divide `T`; when `F` divides `T` it is
`T/F + 1`, one more than `⌈T/F⌉`. -/
theorem stacking_output_time_eq_floor_succ (F fi fo b t h : ℕ) (hF : 1 ≤ F)
    (lengths : List ℤ) :
    ((StackingSubsampling.mk F fi fo).forward b t h lengths).1 = (b, t / F + 1, fo) := by
  simp only [StackingSubsampling.forward, StackingSubsampling.padSize]
  rw [stacking_time_eq F t hF]

/-- Witness for C2 (amended) at `F = 4`, `t = 10`. -/
theorem stacking_output_time_eq_floor_succ_witness :
    1 ≤ 4
    ∧ ((StackingSubsampling.mk 4 80 256).forward 2 10 80 [10, 3]).1 = (2, 10 / 4 + 1, 256) :=
  ⟨by decide, stacking_output_time_eq_floor_succ 4 80 256 2 10 80 (by decide) [10, 3]⟩

/-- C3 counterexample: a subsampling factor of 6 — even but not a power
of two — is accepted by the constructor (no configuration error is
raised; the stage count comes out as `⌊log₂ 6⌋ = 2`). -/
theorem even_non_power_of_two_factor_accepted :
    convSubsamplingInit "striding" 6 80 320 256
      = Except.ok ⟨"striding", 1, 3, 2, false, 2, 80, 320, 256, stridingLayers 256 2 1⟩ := by
  rfl

/-- C3 amended: with a valid strategy name, construction raises a
configuration error for every odd factor (the even-check error of
lines 74-75) and for factor 0 (the `math domain error` raised by
`int(math.log(0, 2))` on line 76); every even factor `≥ 2` —
including non-powers-of-two such as 6 or 12 — is accepted without
error. -/
theorem factor_rejected_iff_odd (s : String) (f fi fo cc : ℕ)
    (hs : s = "vggnet" ∨ s = "striding") :
    (∃ cfg, convSubsamplingInit s f fi fo cc = Except.ok cfg) ↔ (f % 2 = 0 ∧ f ≠ 0) := by
  unfold convSubsamplingInit
  rcases hs with rfl | rfl
  · by_cases hodd : f % 2 ≠ 0
    · rw [if_pos hodd]
      simp only [reduceCtorEq, exists_false, false_iff]
      omega
    · by_cases h0 : f = 0
      · rw [if_neg hodd, if_pos h0]
        simp only [reduceCtorEq, exists_false, false_iff]
        omega
      · rw [if_neg hodd, if_neg h0, if_pos rfl]
        simp only [Except.ok.injEq, exists_eq', true_iff]
        omega
  · by_cases hodd : f % 2 ≠ 0
    · rw [if_pos hodd]
      simp only [reduceCtorEq, exists_false, false_iff]
      omega
    · by_cases h0 : f = 0
      · rw [if_neg hodd, if_pos h0]
        simp only [reduceCtorEq, exists_false, false_iff]
        omega
      · rw [if_neg hodd, if_neg h0,
          if_neg (show ¬ ("striding" = "vggnet") by decide), if_pos rfl]
        simp only [Except.ok.injEq, exists_eq', true_iff]
        omega

/-- Witness for C3 (amended) at strategy "striding", factor 12. -/
theorem factor_rejected_iff_odd_witness :
    ("striding" = "vggnet" ∨ "striding" = "striding")
    ∧ ((∃ cfg, convSubsamplingInit "striding" 12 80 320 256 = Except.ok cfg)
        ↔ (12 % 2 = 0 ∧ 12 ≠ 0)) :=
  ⟨Or.inr rfl, factor_rejected_iff_odd "striding" 12 80 320 256 (Or.inr rfl)⟩

/-- C8: constructing `ConvSubsampling` with any strategy name other
than "vggnet" or "striding" raises a configuration error at
construction time (the odd-factor error, the factor-0 log domain
error, or the invalid-strategy error, all raised before any forward
pass exists). -/
theorem unknown_strategy_raises_at_construction (s : String) (f fi fo cc : ℕ)
    (h1 : s ≠ "vggnet") (h2 : s ≠ "striding") :
    ∃ msg, convSubsamplingInit s f fi fo cc = Except.error msg := by
  unfold convSubsamplingInit
  by_cases hodd : f % 2 ≠ 0
  · rw [if_pos hodd]
    exact ⟨_, rfl⟩
  · by_cases h0 : f = 0
    · rw [if_neg hodd, if_pos h0]
      exact ⟨_, rfl⟩
    · simp only [if_neg hodd, if_neg h0, if_neg h1, if_neg h2]
      exact ⟨_, rfl⟩

/-- Witness for C8 at strategy "unknown", factor 4. -/
theorem unknown_strategy_raises_at_construction_witness :
    ("unknown" : String) ≠ "vggnet" ∧ ("unknown" : String) ≠ "striding"
    ∧ ∃ msg, convSubsamplingInit "unknown" 4 80 320 256 = Except.error msg :=
  ⟨by decide, by decide,
    unknown_strategy_raises_at_construction "unknown" 4 80 320 256 (by decide) (by decide)⟩

/-- C1: for every `ConvSubsampling` built with a valid strategy and
factor, `forward` computes the updated lengths with the same
padding/kernel/stride/rounding parameters as the convolution stack
itself, and an input whose valid length equals the time size `t` is
mapped to exactly the time size of the output tensor after the
reduction stages. -/
theorem conv_forward_length_matches_output_time (s : String) (f fi fo cc b : ℕ)
    (cfg : ConvConfig) (hinit : convSubsamplingInit s f fi fo cc = Except.ok cfg)
    (t d : ℤ) (lengths : List ℤ) :
    (cfg.forwardShape b t d lengths).2
      = lengths.map (fun l => calc_length l cfg.padding cfg.kernel_size cfg.stride
          cfg.ceil_mode cfg.sampling_num)
    ∧ (cfg.forwardShape b t d [t]).2 = [(cfg.forwardShape b t d [t]).1.2.1] := by
  constructor
  · rfl
  · simp only [ConvConfig.forwardShape, List.map]
    rcases convSubsamplingInit_ok hinit with
      ⟨hp, hk, hs2, hc, hcc, hl⟩ | ⟨hp, hk, hs2, hc, hcc, hl⟩
    · rw [hp, hk, hs2, hc, hl, seqDimOut_vggnet]
    · rw [hp, hk, hs2, hc, hl, seqDimOut_striding]

/-- Witness for C1: "vggnet" with factor 4, input time 37. -/
theorem conv_forward_length_matches_output_time_witness :
    convSubsamplingInit "vggnet" 4 80 320 256
      = Except.ok ⟨"vggnet", 0, 2, 2, true, 2, 80, 320, 256, vggnetLayers 256 2 1⟩
    ∧ ((ConvConfig.forwardShape
          ⟨"vggnet", 0, 2, 2, true, 2, 80, 320, 256, vggnetLayers 256 2 1⟩
          3 37 80 [37, 20]).2
        = [37, 20].map (fun l => calc_length l 0 2 2 true 2)
      ∧ (ConvConfig.forwardShape
          ⟨"vggnet", 0, 2, 2, true, 2, 80, 320, 256, vggnetLayers 256 2 1⟩
          3 37 80 [37]).2
        = [(ConvConfig.forwardShape
            ⟨"vggnet", 0, 2, 2, true, 2, 80, 320, 256, vggnetLayers 256 2 1⟩
            3 37 80 [37]).1.2.1]) :=
  ⟨rfl, conv_forward_length_matches_output_time "vggnet" 4 80 320 256 3
    ⟨"vggnet", 0, 2, 2, true, 2, 80, 320, 256, vggnetLayers 256 2 1⟩ rfl 37 80 [37, 20]⟩

/-- C6: the concrete scenario of the source's `__main__` block:
strategy "striding", factor 4, feat_in 80, feat_out 320,
conv_channels 256; a forward call on a `(4, 1600, 80)` input with
lengths `[1600, 324, 1, 666]` yields output shape `(4, 400, 320)` and
lengths `[400, 81, 1, 167]` (padding 1, kernel 3, stride 2, floor
rounding, repeated twice). -/
theorem striding_concrete_scenario :
    convSubsamplingInit "striding" 4 80 320 256
      = Except.ok ⟨"striding", 1, 3, 2, false, 2, 80, 320, 256, stridingLayers 256 2 1⟩
    ∧ ConvConfig.forwardShape
        ⟨"striding", 1, 3, 2, false, 2, 80, 320, 256, stridingLayers 256 2 1⟩
        4 1600 80 [1600, 324, 1, 666]
      = ((4, 400, 320), [400, 81, 1, 167]) := by
  constructor
  · rfl
  · simp only [ConvConfig.forwardShape, List.map, seqDimOut_striding]
    simp only [calc_length_striding_eval]
    decide

/-- C10: the updated length vector of `ConvSubsampling.forward` depends
only on the input lengths and the stored configuration, never on the
values of the feature tensor: two inputs of the same shape give the
same updated lengths. -/
theorem updated_lengths_independent_of_features (m : ConvSubsampling)
    (x1 x2 : Tensor3) (lengths : List ℤ)
    (hb : x1.batch = x2.batch) (ht : x1.time = x2.time) (hf : x1.feat = x2.feat) :
    (m.forward x1 lengths).2 = (m.forward x2 lengths).2 := rfl

/-- Witness for C10: same-shape tensors with different values through a
concrete module. -/
theorem updated_lengths_independent_of_features_witness :
    (Tensor3.mk 1 4 2 (fun _ _ _ => 0)).batch = (Tensor3.mk 1 4 2 (fun _ _ _ => 7)).batch
    ∧ (Tensor3.mk 1 4 2 (fun _ _ _ => 0)).time = (Tensor3.mk 1 4 2 (fun _ _ _ => 7)).time
    ∧ (Tensor3.mk 1 4 2 (fun _ _ _ => 0)).feat = (Tensor3.mk 1 4 2 (fun _ _ _ => 7)).feat
    ∧ ((ConvSubsampling.mk
          ⟨"striding", 1, 3, 2, false, 2, 80, 320, 256, stridingLayers 256 2 1⟩
          id id).forward (Tensor3.mk 1 4 2 (fun _ _ _ => 0)) [4, 2]).2
      = ((ConvSubsampling.mk
          ⟨"striding", 1, 3, 2, false, 2, 80, 320, 256, stridingLayers 256 2 1⟩
          id id).forward (Tensor3.mk 1 4 2 (fun _ _ _ => 7)) [4, 2]).2 :=
  ⟨rfl, rfl, rfl,
    updated_lengths_independent_of_features
      (ConvSubsampling.mk
        ⟨"striding", 1, 3, 2, false, 2, 80, 320, 256, stridingLayers 256 2 1⟩
        id id)
      (Tensor3.mk 1 4 2 (fun _ _ _ => 0)) (Tensor3.mk 1 4 2 (fun _ _ _ => 7))
      [4, 2] rfl rfl rfl⟩

/-- C4: every `StackingSubsampling.forward` call right-pads the time
axis by `pad_size = F − (T mod F)` zero frames — a full block of `F`
frames when `F` divides `T`, never zero — and updates each length to
`floor((length + pad_size) / F)`; in particular, when `F` divides `T`
the update is `floor((length + F) / F)`. -/
theorem stacking_pad_block_and_length_update (F fi fo b t h : ℕ) (hF : 1 ≤ F)
    (lengths : List ℤ) (x : List (List ℚ)) :
    (StackingSubsampling.mk F fi fo).padSize t = F - t % F
    ∧ 1 ≤ (StackingSubsampling.mk F fi fo).padSize t
    ∧ (t % F = 0 → (StackingSubsampling.mk F fi fo).padSize t = F)
    ∧ (∀ fr ∈ (padTimeFrames ((StackingSubsampling.mk F fi fo).padSize t) h x).drop x.length,
        fr = List.replicate h 0)
    ∧ ((StackingSubsampling.mk F fi fo).forward b t h lengths).2
        = lengths.map (fun (l : ℤ) => ⌊((l : ℚ) + (((F - t % F : ℕ)) : ℚ)) / (((F : ℕ)) : ℚ)⌋)
    ∧ (t % F = 0 → ((StackingSubsampling.mk F fi fo).forward b t h lengths).2
        = lengths.map (fun (l : ℤ) => ⌊((l : ℚ) + (((F : ℕ)) : ℚ)) / (((F : ℕ)) : ℚ)⌋)) := by
  have hmod : t % F < F := Nat.mod_lt _ hF
  refine ⟨rfl, ?_, fun h0 => ?_, fun fr hfr => ?_, rfl, fun h0 => ?_⟩
  · simp only [StackingSubsampling.padSize]
    omega
  · simp only [StackingSubsampling.padSize, h0, Nat.sub_zero]
  · rw [padTimeFrames, List.drop_left] at hfr
    exact List.eq_of_mem_replicate hfr
  · have hpad : (StackingSubsampling.mk F fi fo).padSize t = F := by
      simp only [StackingSubsampling.padSize, h0, Nat.sub_zero]
    simp only [StackingSubsampling.forward, hpad]

/-- Witness for C4 at `F = 2`, `t = 4` (an exact multiple), one frame
row and one length. -/
theorem stacking_pad_block_and_length_update_witness :
    1 ≤ 2
    ∧ ((StackingSubsampling.mk 2 3 5).padSize 4 = 2 - 4 % 2
    ∧ 1 ≤ (StackingSubsampling.mk 2 3 5).padSize 4
    ∧ (4 % 2 = 0 → (StackingSubsampling.mk 2 3 5).padSize 4 = 2)
    ∧ (∀ fr ∈ (padTimeFrames ((StackingSubsampling.mk 2 3 5).padSize 4) 3
          [[1, 1, 1]]).drop [[(1 : ℚ), 1, 1]].length,
        fr = List.replicate 3 0)
    ∧ ((StackingSubsampling.mk 2 3 5).forward 1 4 3 [4]).2
        = [(4 : ℤ)].map (fun (l : ℤ) => ⌊((l : ℚ) + (((2 - 4 % 2 : ℕ)) : ℚ)) / (((2 : ℕ)) : ℚ)⌋)
    ∧ (4 % 2 = 0 → ((StackingSubsampling.mk 2 3 5).forward 1 4 3 [4]).2
        = [(4 : ℤ)].map (fun (l : ℤ) => ⌊((l : ℚ) + (((2 : ℕ)) : ℚ)) / (((2 : ℕ)) : ℚ)⌋))) :=
  ⟨by decide,
    stacking_pad_block_and_length_update 2 3 5 1 4 3 (by decide) [4] [[1, 1, 1]]⟩


/-- C7: for both subsampling components, if every input length lies in
`[0, t]` (the input time dimension), then every updated length lies in
`[0, T']`, where `T'` is the output tensor's time dimension. -/
theorem updated_lengths_bounded_by_output_time
    (F fi fo b t h b2 : ℕ) (hF : 1 ≤ F)
    (lengths : List ℤ) (hlen : ∀ l ∈ lengths, 0 ≤ l ∧ l ≤ (t : ℤ))
    (s : String) (f fi2 fo2 cc : ℕ) (cfg : ConvConfig)
    (hinit : convSubsamplingInit s f fi2 fo2 cc = Except.ok cfg) (d : ℤ) :
    (∀ l2 ∈ ((StackingSubsampling.mk F fi fo).forward b t h lengths).2,
        0 ≤ l2
        ∧ l2 ≤ ((((StackingSubsampling.mk F fi fo).forward b t h lengths).1.2.1 : ℕ) : ℤ))
    ∧ (∀ l2 ∈ (cfg.forwardShape b2 (t : ℤ) d lengths).2,
        0 ≤ l2 ∧ l2 ≤ (cfg.forwardShape b2 (t : ℤ) d lengths).1.2.1) := by
  have hFq : (0 : ℚ) < ((F : ℕ) : ℚ) := by exact_mod_cast hF
  constructor
  · intro l2 hl2
    simp only [StackingSubsampling.forward] at hl2 ⊢
    rw [List.mem_map] at hl2
    obtain ⟨l, hlmem, rfl⟩ := hl2
    obtain ⟨hl0, hlt⟩ := hlen l hlmem
    have hl0q : (0 : ℚ) ≤ (l : ℚ) := by exact_mod_cast hl0
    have hltq : (l : ℚ) ≤ ((t : ℕ) : ℚ) := by exact_mod_cast hlt
    constructor
    · apply Int.le_floor.mpr
      push_cast
      apply div_nonneg _ (le_of_lt hFq)
      positivity
    · have hnum : ((l : ℚ) + (((StackingSubsampling.mk F fi fo).padSize t : ℕ) : ℚ))
            / ((F : ℕ) : ℚ)
          ≤ (((t + (StackingSubsampling.mk F fi fo).padSize t : ℕ)) : ℚ) / ((F : ℕ) : ℚ) := by
        have hcast : (((t + (StackingSubsampling.mk F fi fo).padSize t : ℕ)) : ℚ)
            = ((t : ℕ) : ℚ) + (((StackingSubsampling.mk F fi fo).padSize t : ℕ) : ℚ) := by
          push_cast
          ring
        rw [hcast]
        gcongr
      calc ⌊((l : ℚ) + (((StackingSubsampling.mk F fi fo).padSize t : ℕ) : ℚ))
              / ((F : ℕ) : ℚ)⌋
          ≤ ⌊(((t + (StackingSubsampling.mk F fi fo).padSize t : ℕ)) : ℚ) / ((F : ℕ) : ℚ)⌋ :=
            Int.floor_le_floor hnum
        _ = ((t + (StackingSubsampling.mk F fi fo).padSize t : ℕ) : ℤ) / ((F : ℕ) : ℤ) :=
            Rat.floor_natCast_div_natCast _ _
        _ = (((t + (StackingSubsampling.mk F fi fo).padSize t) / F : ℕ) : ℤ) :=
            (Int.ofNat_div _ _).symm
  · intro l2 hl2
    simp only [ConvConfig.forwardShape] at hl2 ⊢
    rw [List.mem_map] at hl2
    obtain ⟨l, hlmem, rfl⟩ := hl2
    obtain ⟨hl0, hlt⟩ := hlen l hlmem
    rcases convSubsamplingInit_ok hinit with
      ⟨hp, hk, hs2, hc, hcc, hl⟩ | ⟨hp, hk, hs2, hc, hcc, hl⟩
    · rw [hp, hk, hs2, hc, hl, seqDimOut_vggnet]
      constructor
      · have hmono := calc_length_mono 0 2 2 true (by norm_num) 0 l hl0 cfg.sampling_num
        rwa [calc_length_vggnet_zero] at hmono
      · exact calc_length_mono 0 2 2 true (by norm_num) l (t : ℤ) hlt cfg.sampling_num
    · rw [hp, hk, hs2, hc, hl, seqDimOut_striding]
      constructor
      · have hmono := calc_length_mono 1 3 2 false (by norm_num) 0 l hl0 cfg.sampling_num
        rwa [calc_length_striding_zero] at hmono
      · exact calc_length_mono 1 3 2 false (by norm_num) l (t : ℤ) hlt cfg.sampling_num

/-- Witness for C7: stacking factor 3 on a length-10 time axis and a
"striding" factor-4 configuration, lengths `[10, 0, 7]`. -/
theorem updated_lengths_bounded_by_output_time_witness :
    1 ≤ 3
    ∧ (∀ l ∈ [(10 : ℤ), 0, 7], 0 ≤ l ∧ l ≤ ((10 : ℕ) : ℤ))
    ∧ convSubsamplingInit "striding" 4 80 320 256
        = Except.ok ⟨"striding", 1, 3, 2, false, 2, 80, 320, 256, stridingLayers 256 2 1⟩
    ∧ ((∀ l2 ∈ ((StackingSubsampling.mk 3 80 256).forward 2 10 80 [10, 0, 7]).2,
          0 ≤ l2
          ∧ l2 ≤ ((((StackingSubsampling.mk 3 80 256).forward 2 10 80 [10, 0, 7]).1.2.1 : ℕ) : ℤ))
      ∧ (∀ l2 ∈ (ConvConfig.forwardShape
            ⟨"striding", 1, 3, 2, false, 2, 80, 320, 256, stridingLayers 256 2 1⟩
            2 ((10 : ℕ) : ℤ) 80 [10, 0, 7]).2,
          0 ≤ l2 ∧ l2 ≤ (ConvConfig.forwardShape
            ⟨"striding", 1, 3, 2, false, 2, 80, 320, 256, stridingLayers 256 2 1⟩
            2 ((10 : ℕ) : ℤ) 80 [10, 0, 7]).1.2.1)) :=
  ⟨by decide, by decide, rfl,
    updated_lengths_bounded_by_output_time 3 80 256 2 10 80 2 (by decide) [10, 0, 7]
      (by decide) "striding" 4 80 320 256
      ⟨"striding", 1, 3, 2, false, 2, 80, 320, 256, stridingLayers 256 2 1⟩ rfl 80⟩
